import Mathlib

/-!
# todo-training: session authentication and per-user todo handlers

A shallow embedding of `main.go`.  The relational store behind the global
`DB` handle is explicit state (`Store`: the `users`, `session` and `todo`
tables as lists of rows in insertion order); every handler is a function from
the response writer, the request and the store to the response writer and
store it leaves behind.

Conventions of the embedding:

* identifiers (uuid values, session tokens) are the text of the uuid, and SQL
  comparisons `id = $1` are equality of that text;
* header names are matched as net/http does, by their canonical spelling
  (`CanonicalMIMEHeaderKey`), so `token`, `Token` and `TOKEN` name the same header;
* timestamps are natural numbers, a nullable column is an `Option`;
* what `uuid.New()`, `time.Now()` and SQL `now()` return during one request is
  an input of the handler (`Env`);
* `encoding/json` is not modelled: a request body is represented by what
  decoding it into each of the three body shapes yields (`Body`);
* a failed type assertion `.(string)` on the request context is a panic, and a
  handler that panics returns `none`;
* only the columns that the SQL text of `main.go` mentions are kept;
* the store is reachable: a statement fails only for a reason of SQL semantics
  (no row for `Get`, a key constraint rejecting an insert);
* the table definitions are not part of `main.go`: the key constraints (row ids, user
  email) follow the data model of the specification, and foreign keys are not assumed
  to be enforced by the store.
-/

namespace TodoTraining

/-! ## Data model -/

/-- Wall-clock instants (`time.Time`, SQL `timestamp`). -/
abbrev Time := Nat

/-- Go struct `todo`: the JSON shape of a todo, also the row shape scanned by `todoList`. -/
structure todo where
  Id : String
  Description : String
  CreatedAt : Option Time
  CompletedAt : Option Time
deriving DecidableEq, Repr

/-- Go struct `user`: the JSON shape of a registration body. -/
structure user where
  Id : String
  Name : String
  Email : String
  Password : String
  CreatedAt : Option Time
  CompletedAt : Option Time
deriving DecidableEq, Repr

/-- Go struct `loginRequest`. -/
structure loginRequest where
  Email : String
  Password : String
deriving DecidableEq, Repr

/-- Go struct `response`: the login reply carrying the session token. -/
structure response where
  Token : String
deriving DecidableEq, Repr

/-- A row of table `users` (columns named by the SQL in `addUser` and `login`). -/
structure UserRow where
  id : String
  name : String
  email : String
  password : String
deriving DecidableEq, Repr

/-- A row of table `session` (columns named by the SQL in `login` and `getUserIdForToken`). -/
structure SessionRow where
  id : String
  user_id : String
  archived_at : Option Time
deriving DecidableEq, Repr

/-- A row of table `todo` (columns named by the SQL in the five todo handlers). -/
structure TodoRow where
  id : String
  description : String
  created_at : Option Time
  completed_at : Option Time
  archived_at : Option Time
  user_id : String
deriving DecidableEq, Repr

/-- The relational store behind the global `DB`: three tables, rows in insertion order. -/
structure Store where
  users : List UserRow
  session : List SessionRow
  todo : List TodoRow
deriving DecidableEq, Repr

/-- Errors a handler can observe: a body that does not decode, `sql.ErrNoRows`,
and an insert rejected by a key constraint. -/
inductive Err where
  | parse
  | noRows
  | constraint
deriving DecidableEq, Repr

/-- Values read from the environment during one request: the result of
`uuid.New()` and the clock reading of `time.Now()` / SQL `now()`. -/
structure Env where
  uuid : String
  now : Time
deriving DecidableEq, Repr

/-! ## net/http: status codes, response writer, context, request -/

namespace http

def StatusOK : Nat := 200
def StatusCreated : Nat := 201
def StatusBadRequest : Nat := 400
def StatusUnauthorized : Nat := 401
def StatusInternalServerError : Nat := 500

end http

/-- What a handler can write to the response body. -/
inductive Payload where
  | text (s : String)
  | error (e : Err)
  | todos (ts : List todo)
  | token (r : response)
deriving DecidableEq, Repr

/-- State of an `http.ResponseWriter`: the status line once written, and the
body chunks written so far. -/
structure ResponseWriter where
  status : Option Nat
  body : List Payload
deriving DecidableEq, Repr

/-- A writer on which nothing has been written yet. -/
def ResponseWriter.fresh : ResponseWriter := ⟨none, []⟩

/-- Method `WriteHeader`: the first call fixes the status, later calls are ignored. -/
def ResponseWriter.WriteHeader (w : ResponseWriter) (statusCode : Nat) : ResponseWriter :=
  match w.status with
  | none => { w with status := some statusCode }
  | some _ => w

/-- Method `Write`: writes the implicit `200 OK` header when none was written, then the data. -/
def ResponseWriter.Write (w : ResponseWriter) (data : Payload) : ResponseWriter :=
  let w1 := w.WriteHeader http.StatusOK
  { w1 with body := w1.body ++ [data] }

/-- A `context.Context` holding string values: most recent binding first. -/
abbrev Context := List (String × String)

/-- Method `Value` of a context: the most recent binding of the key, `none` for the nil interface. -/
def Context.Value (ctx : Context) (key : String) : Option String :=
  ctx.lookup key

/-- Function `context.WithValue`. -/
def Context.WithValue (ctx : Context) (key val : String) : Context :=
  (key, val) :: ctx

/-- A request body, represented by the outcome of decoding it into each body shape
(`none`: the decoder returns an error). -/
structure Body where
  asTodo : Option todo
  asUser : Option user
  asLogin : Option loginRequest
deriving DecidableEq, Repr

/-- The parts of `http.Request` that the handlers read; `Header` holds the header lines
(name as spelled by the client, value) in the order received. -/
structure Request where
  Header : List (String × String)
  Body : Body
  ctx : Context
deriving DecidableEq, Repr

/-- Function `validHeaderFieldByte` of net/textproto: letters, digits and the other
characters of an HTTP token, given by their codes (`!#$%&` 33 and 35 to 38, quote 39,
`*+` 42 43, `-.` 45 46, `^_` 94 95, grave accent 96, `|` 124, `~` 126). -/
def validHeaderFieldByte (c : Char) : Bool :=
  c.isAlphanum || [33, 35, 36, 37, 38, 39, 42, 43, 45, 46, 94, 95, 96, 124, 126].contains c.toNat

/-- The loop of `CanonicalMIMEHeaderKey`: upper case for the first letter and for a letter
after a dash, lower case for every other letter. -/
def canonicalLoop : Bool → List Char → List Char
  | _, [] => []
  | upper, c :: cs =>
    let c1 := if upper && c.isLower then c.toUpper
      else if !upper && c.isUpper then c.toLower else c
    c1 :: canonicalLoop (c1 == '-') cs

/-- Function `textproto.CanonicalMIMEHeaderKey`: the canonical spelling of a header name;
a name holding a character that is not a header field byte is returned unchanged. -/
def CanonicalMIMEHeaderKey (s : String) : String :=
  if s.data.all validHeaderFieldByte then String.mk (canonicalLoop true s.data) else s

/-- Method `Header.Get`: the first value stored under the canonical spelling of the key,
the empty string when there is none.  The field `Header` lists the header lines in the
order received; the server stores each under the canonical spelling of its name. -/
def Request.HeaderGet (r : Request) (key : String) : String :=
  match r.Header.find? (fun h => CanonicalMIMEHeaderKey h.1 == CanonicalMIMEHeaderKey key) with
  | some h => h.2
  | none => ""

/-- Method `WithContext` of a request. -/
def Request.WithContext (r : Request) (ctx : Context) : Request :=
  { r with ctx := ctx }

/-- Method `Context` of a request. -/
def Request.Context (r : Request) : TodoTraining.Context := r.ctx

/-- Constant `userContextKey`. -/
def userContextKey : String := "userContext"

/-- A handler: `none` when it panics, otherwise the writer and the store it leaves. -/
abbrev Handler := Env → ResponseWriter → Request → Store → Option (ResponseWriter × Store)

/-! ## The SQL statements of `main.go` over the store -/

/-- Method `Get` of sqlx on the rows a query selects: the first row, `sql.ErrNoRows` when there is none. -/
def Get {α : Type} (rows : List α) : Except Err α :=
  match rows with
  | [] => .error .noRows
  | r :: _ => .ok r

/-- Method `Select` of sqlx on the rows a query selects: all of them. -/
def Select {α : Type} (rows : List α) : Except Err (List α) :=
  .ok rows

namespace Store

/-- Query `select user_id from session where id = $1 and archived_at is null`. -/
def selectSessionUserId (db : Store) (id : String) : List String :=
  (db.session.filter (fun s => decide (s.id = id ∧ s.archived_at = none))).map (fun s => s.user_id)

/-- Query `select id, description, created_at, completed_at from todo where archived_at is null and user_id = $1`. -/
def selectTodos (db : Store) (userId : String) : List TodoTraining.todo :=
  (db.todo.filter (fun t => decide (t.archived_at = none ∧ t.user_id = userId))).map
    (fun t => ⟨t.id, t.description, t.created_at, t.completed_at⟩)

/-- Query `select id from users where email = $1 and password = $2`. -/
def selectUserId (db : Store) (email password : String) : List String :=
  (db.users.filter (fun u => decide (u.email = email ∧ u.password = password))).map (fun u => u.id)

/-- Modelled from the spec: the table definitions are not in the source; the data model
gives every row an identifier and calls the user identifier and the email unique, so an
insert into `users` is rejected when its id or its email is already present.
Statement `insert into users (id, name, email, password) values ($1, $2, $3, $4)`. -/
def insertUser (db : Store) (id name email password : String) : Except Err Store :=
  if db.users.any (fun u => decide (u.id = id ∨ u.email = email)) then .error .constraint
  else .ok { db with users := db.users ++ [⟨id, name, email, password⟩] }

/-- Modelled from the spec: the table definitions are not in the source; the session
identifier is the key of its table, so an insert is rejected when the id is already
present, and a new row has no archival timestamp.
Statement `insert into session (id, user_id) values ($1, $2)`. -/
def insertSession (db : Store) (id userId : String) : Except Err Store :=
  if db.session.any (fun s => decide (s.id = id)) then .error .constraint
  else .ok { db with session := db.session ++ [⟨id, userId, none⟩] }

/-- Modelled from the spec: the table definitions are not in the source; the todo
identifier is the key of its table, so an insert is rejected when the id is already
present, and a new row has neither completion nor archival timestamp.
Statement `insert into todo (id, description, created_at, user_id) values ($1, $2, $3, $4)`. -/
def insertTodo (db : Store) (id description : String) (createdAt : Time) (userId : String) :
    Except Err Store :=
  if db.todo.any (fun t => decide (t.id = id)) then .error .constraint
  else .ok { db with todo := db.todo ++ [⟨id, description, some createdAt, none, none, userId⟩] }

/-- Statement `update todo set description = $1 where id = $2 and user_id = $3`. -/
def updateDescription (db : Store) (description id userId : String) : Except Err Store :=
  .ok { db with todo := db.todo.map (fun t =>
    if t.id = id ∧ t.user_id = userId then { t with description := description } else t) }

/-- Statement `update todo set completed_at = $1 where id = $2 and user_id = $3`. -/
def updateCompletedAt (db : Store) (completedAt : Time) (id userId : String) : Except Err Store :=
  .ok { db with todo := db.todo.map (fun t =>
    if t.id = id ∧ t.user_id = userId then { t with completed_at := some completedAt } else t) }

/-- Statement `update todo set archived_at = now() where id = $1 and user_id = $2`;
the extra argument is the value of `now()`. -/
def updateArchivedAt (db : Store) (now : Time) (id userId : String) : Except Err Store :=
  .ok { db with todo := db.todo.map (fun t =>
    if t.id = id ∧ t.user_id = userId then { t with archived_at := some now } else t) }

end Store

/-! ## Helpers of `main.go` -/

/-- Decoding targets of `ParseBody`: the three struct types the handlers pass as `out`. -/
class Decodable (α : Type) where
  decode : Body → Option α

instance : Decodable todo := ⟨Body.asTodo⟩
instance : Decodable user := ⟨Body.asUser⟩
instance : Decodable loginRequest := ⟨Body.asLogin⟩

/-- Function `ParseBody`: the decoded value, or the decoder error. -/
def ParseBody {α : Type} [Decodable α] (body : Body) : Except Err α :=
  match Decodable.decode body with
  | none => .error .parse
  | some out => .ok out

/-- Function `EncodeJSONBody`: encodes the data onto the response writer. -/
def EncodeJSONBody (resp : ResponseWriter) (data : Payload) : ResponseWriter :=
  resp.Write data

/-- Function `RespondJSON`: writes the status, then the body when it is not nil. -/
def RespondJSON (w : ResponseWriter) (statusCode : Nat) (body : Option Payload) : ResponseWriter :=
  let w1 := w.WriteHeader statusCode
  match body with
  | some b => EncodeJSONBody w1 b
  | none => w1

/-- Expression `req.Context().Value(userContextKey).(string)`: `none` is the panic of the
type assertion on a nil interface. -/
def userIdOf (req : Request) : Option String :=
  req.Context.Value userContextKey

/-! ## Session resolver and auth gate -/

/-- Function `getUserIdForToken`: the user id of the first active session with that id,
together with the store after the query. -/
def getUserIdForToken (db : Store) (sessionToken : String) : Except Err String × Store :=
  (Get (db.selectSessionUserId sessionToken), db)

/-- Function `AuthMiddleware`. -/
def AuthMiddleware (next : Handler) : Handler := fun env w r db =>
  let sessionToken := r.HeaderGet "token"
  match getUserIdForToken db sessionToken with
  | (.error err, db1) => some (RespondJSON w http.StatusUnauthorized (some (.error err)), db1)
  | (.ok userId, db1) =>
    let r1 := r.WithContext (r.Context.WithValue userContextKey userId)
    next env w r1 db1

/-- Function `health`. -/
def health : Handler := fun _ w _ db =>
  some (w.Write (.text "health\n"), db)

/-! ## Todo handlers -/

/-- Function `todoList`. -/
def todoList : Handler := fun _ w req db =>
  match userIdOf req with
  | none => none
  | some userId =>
    match Select (db.selectTodos userId) with
    | .error _ => some (w.WriteHeader http.StatusInternalServerError, db)
    | .ok todos => some (RespondJSON w http.StatusOK (some (.todos todos)), db)

/-- Function `addTodo`. -/
def addTodo : Handler := fun env w req db =>
  match userIdOf req with
  | none => none
  | some userId =>
    match (ParseBody req.Body : Except Err todo) with
    | .error _ => some (w.WriteHeader http.StatusBadRequest, db)
    | .ok body =>
      match db.insertTodo env.uuid body.Description env.now userId with
      | .error _ => some (w.WriteHeader http.StatusInternalServerError, db)
      | .ok db1 => some (w.WriteHeader http.StatusCreated, db1)

/-- Function `updateTODO`. -/
def updateTODO : Handler := fun _ w req db =>
  match userIdOf req with
  | none => none
  | some userId =>
    match (ParseBody req.Body : Except Err todo) with
    | .error _ => some (w.WriteHeader http.StatusBadRequest, db)
    | .ok body =>
      match db.updateDescription body.Description body.Id userId with
      | .error _ => some (w.WriteHeader http.StatusInternalServerError, db)
      | .ok db1 => some (w.WriteHeader http.StatusCreated, db1)

/-- Function `completeTODO`. -/
def completeTODO : Handler := fun env w req db =>
  match userIdOf req with
  | none => none
  | some userId =>
    match (ParseBody req.Body : Except Err todo) with
    | .error _ => some (w.WriteHeader http.StatusBadRequest, db)
    | .ok body =>
      match db.updateCompletedAt env.now body.Id userId with
      | .error _ => some (w.WriteHeader http.StatusInternalServerError, db)
      | .ok db1 => some (w.WriteHeader http.StatusCreated, db1)

/-- Function `deleteTODO`. -/
def deleteTODO : Handler := fun env w req db =>
  match userIdOf req with
  | none => none
  | some userId =>
    match (ParseBody req.Body : Except Err todo) with
    | .error _ => some (w.WriteHeader http.StatusBadRequest, db)
    | .ok body =>
      match db.updateArchivedAt env.now body.Id userId with
      | .error _ => some (w.WriteHeader http.StatusInternalServerError, db)
      | .ok db1 => some (w.WriteHeader http.StatusCreated, db1)

/-! ## Registration and login -/

/-- Function `addUser`. -/
def addUser : Handler := fun env w r db =>
  match (ParseBody r.Body : Except Err user) with
  | .error err => some (RespondJSON w http.StatusBadRequest (some (.error err)), db)
  | .ok body =>
    match db.insertUser env.uuid body.Name body.Email body.Password with
    | .error err => some (RespondJSON w http.StatusInternalServerError (some (.error err)), db)
    | .ok db1 => some (RespondJSON w http.StatusCreated none, db1)

/-- Function `login`. -/
def login : Handler := fun env w r db =>
  match (ParseBody r.Body : Except Err loginRequest) with
  | .error err => some (RespondJSON w http.StatusBadRequest (some (.error err)), db)
  | .ok body =>
    match Get (db.selectUserId body.Email body.Password) with
    | .error err => some (RespondJSON w http.StatusUnauthorized (some (.error err)), db)
    | .ok userId =>
      let sessionId := env.uuid
      match db.insertSession sessionId userId with
      | .error err => some (RespondJSON w http.StatusInternalServerError (some (.error err)), db)
      | .ok db1 => some (RespondJSON w http.StatusCreated (some (.token ⟨sessionId⟩)), db1)

/-! ## Router -/

/-- The routes bound in `main`, `userRouter` and `todoRouters`. -/
inductive Route where
  | getHealth
  | postLogin
  | postUser
  | getTodo
  | postTodo
  | putTodoId
  | putTodoIdComplete
  | deleteTodoId
deriving DecidableEq, Repr

/-- The router built in `main` with `userRouter` and `todoRouters`: the handler serving
each route; `todoRouters` installs `AuthMiddleware` in front of every `/todo` handler. -/
def router : Route → Handler
  | .getHealth => health
  | .postLogin => login
  | .postUser => addUser
  | .getTodo => AuthMiddleware todoList
  | .postTodo => AuthMiddleware addTodo
  | .putTodoId => AuthMiddleware updateTODO
  | .putTodoIdComplete => AuthMiddleware completeTODO
  | .deleteTodoId => AuthMiddleware deleteTODO

/-- One request served on a fresh response writer. -/
def serve (rt : Route) (env : Env) (req : Request) (db : Store) : Option (ResponseWriter × Store) :=
  router rt env ResponseWriter.fresh req db

/-! ## Store predicates used by the statements -/

/-- Key constraint of table `todo`: no two rows share an id. -/
def Store.todoKey (db : Store) : Prop := (db.todo.map (fun t => t.id)).Nodup

/-- Key constraint of table `session`: no two rows share an id. -/
def Store.sessionKey (db : Store) : Prop := (db.session.map (fun s => s.id)).Nodup

instance (db : Store) : Decidable db.todoKey := by unfold Store.todoKey; infer_instance
instance (db : Store) : Decidable db.sessionKey := by unfold Store.sessionKey; infer_instance

/-- A session is active for a token: its id is the token and it is not archived. -/
def SessionRow.activeFor (s : SessionRow) (token : String) : Prop :=
  s.id = token ∧ s.archived_at = none

instance (s : SessionRow) (token : String) : Decidable (s.activeFor token) := by
  unfold SessionRow.activeFor; infer_instance

/-- Referential integrity: every session and every todo belongs to an existing user. -/
def Store.refInt (db : Store) : Prop :=
  (∀ s ∈ db.session, ∃ u ∈ db.users, u.id = s.user_id) ∧
  (∀ t ∈ db.todo, ∃ u ∈ db.users, u.id = t.user_id)

instance (db : Store) : Decidable db.refInt := by unfold Store.refInt; infer_instance

/-- The effect of `update todo set archived_at = now() where id = $1 and user_id = $2`
on one row. -/
def archiveRow (now : Time) (id userId : String) (t : TodoRow) : TodoRow :=
  if t.id = id ∧ t.user_id = userId then { t with archived_at := some now } else t

/-- The store with every todo row passed through `archiveRow`. -/
def Store.archived (db : Store) (now : Time) (id userId : String) : Store :=
  { db with todo := db.todo.map (archiveRow now id userId) }

/-! ## Sample data -/

/-- A store with two users, one session each, and one todo of the first user. -/
def sampleStore : Store where
  users := [⟨"u-al", "Al", "al@x.com", "pw"⟩, ⟨"u-bo", "Bo", "bo@x.com", "pw2"⟩]
  session := [⟨"s-al", "u-al", none⟩, ⟨"s-bo", "u-bo", none⟩, ⟨"s-old", "u-al", some 3⟩]
  todo := [⟨"t-1", "buy milk", some 5, none, none, "u-al"⟩,
           ⟨"t-2", "walk dog", some 6, none, some 7, "u-al"⟩,
           ⟨"t-3", "call mum", some 8, none, none, "u-bo"⟩]

/-- The first todo of `sampleStore`. -/
def sampleTodo : TodoRow := ⟨"t-1", "buy milk", some 5, none, none, "u-al"⟩

/-- A body that decodes as a todo naming `t-1`. -/
def sampleTodoBody : Body := ⟨some ⟨"t-1", "hacked", none, none⟩, none, none⟩

/-- A body that decodes into none of the shapes. -/
def malformedBody : Body := ⟨none, none, none⟩

/-- A request whose context carries the given user id. -/
def requestAs (userId : String) (body : Body) : Request :=
  ⟨[], body, [(userContextKey, userId)]⟩

/-- A request carrying the given token header and an empty context. -/
def requestWithToken (token : String) (body : Body) : Request :=
  ⟨[("token", token)], body, []⟩

/-- A request carrying the token in a header whose name the client spelled as given. -/
def requestWithHeader (name token : String) (body : Body) : Request :=
  ⟨[("Content-Type", "application/json"), (name, token)], body, []⟩

/-- An environment value. -/
def sampleEnv : Env := ⟨"fresh-1", 10⟩

/-- An environment value of a later request. -/
def laterEnv : Env := ⟨"fresh-2", 11⟩

/-- The store `sampleStore` with the archival timestamp of `t-1` set to the given time. -/
def sampleStoreArchived (now : Time) : Store :=
  { sampleStore with todo :=
      [⟨"t-1", "buy milk", some 5, none, some now, "u-al"⟩,
       ⟨"t-2", "walk dog", some 6, none, some 7, "u-al"⟩,
       ⟨"t-3", "call mum", some 8, none, none, "u-bo"⟩] }

/-! ## Basic facts about the helpers -/

theorem Get_nil {α : Type} : Get ([] : List α) = .error .noRows := rfl

theorem Get_cons {α : Type} (a : α) (l : List α) : Get (a :: l) = .ok a := rfl

theorem Get_ok_mem {α : Type} {l : List α} {a : α} (h : Get l = .ok a) : a ∈ l := by
  cases l with
  | nil => simp [Get] at h
  | cons b t =>
    simp only [Get, Except.ok.injEq] at h
    simp [h]

theorem Get_error {α : Type} {l : List α} {e : Err} (h : Get l = .error e) :
    l = [] ∧ e = .noRows := by
  cases l with
  | nil =>
    simp only [Get, Except.error.injEq] at h
    exact ⟨rfl, h.symm⟩
  | cons b t => simp [Get] at h

theorem status_WriteHeader (w : ResponseWriter) (c : Nat) (hw : w.status = none) :
    (w.WriteHeader c).status = some c := by
  simp [ResponseWriter.WriteHeader, hw]

theorem status_RespondJSON (w : ResponseWriter) (c : Nat) (b : Option Payload)
    (hw : w.status = none) : (RespondJSON w c b).status = some c := by
  cases b <;>
    simp [RespondJSON, EncodeJSONBody, ResponseWriter.Write, ResponseWriter.WriteHeader, hw]

theorem ParseBody_todo_ok {req : Request} {body : todo} (h : req.Body.asTodo = some body) :
    (ParseBody req.Body : Except Err todo) = .ok body := by
  simp [ParseBody, Decodable.decode, h]

theorem ParseBody_todo_error {req : Request} (h : req.Body.asTodo = none) :
    (ParseBody req.Body : Except Err todo) = .error .parse := by
  simp [ParseBody, Decodable.decode, h]

theorem userIdOf_WithContext (r : Request) (userId : String) :
    userIdOf (r.WithContext (r.Context.WithValue userContextKey userId)) = some userId := by
  simp [userIdOf, Request.WithContext, Request.Context, Context.WithValue, Context.Value,
    List.lookup]

/-- The session resolver succeeds exactly when some session is active for the token. -/
theorem getUserIdForToken_ok_iff (db : Store) (token : String) :
    (∃ userId, (getUserIdForToken db token).1 = .ok userId) ↔
      ∃ s ∈ db.session, s.activeFor token := by
  unfold getUserIdForToken Store.selectSessionUserId SessionRow.activeFor
  constructor
  · rintro ⟨userId, h⟩
    have hm := Get_ok_mem h
    simp only [List.mem_map, List.mem_filter, decide_eq_true_eq] at hm
    obtain ⟨s, ⟨hs, hact⟩, _⟩ := hm
    exact ⟨s, hs, hact⟩
  · rintro ⟨s, hs, hact⟩
    have hmem : s.user_id ∈ (db.session.filter
        (fun s => decide (s.id = token ∧ s.archived_at = none))).map (fun s => s.user_id) := by
      simp only [List.mem_map, List.mem_filter, decide_eq_true_eq]
      exact ⟨s, ⟨hs, hact⟩, rfl⟩
    cases hl : (db.session.filter
        (fun s => decide (s.id = token ∧ s.archived_at = none))).map (fun s => s.user_id) with
    | nil => rw [hl] at hmem; simp at hmem
    | cons a t => exact ⟨a, by simp [Get]⟩

/-- Filtering a list on a key that is free of duplicates keeps at most the row asked for. -/
theorem filter_key_eq {α β : Type} [DecidableEq β] (f : α → β) (p : α → Bool) (l : List α)
    (hnd : (l.map f).Nodup) (a : α) (ha : a ∈ l) (hpa : p a = true)
    (hp : ∀ x, p x = true → f x = f a) : l.filter p = [a] := by
  induction l with
  | nil => simp at ha
  | cons b t ih =>
    simp only [List.map_cons, List.nodup_cons, List.mem_map, not_exists, not_and] at hnd
    rcases List.mem_cons.mp ha with hab | hat
    · subst hab
      have ht : t.filter p = [] := by
        apply List.filter_eq_nil_iff.mpr
        intro x hx hpx
        exact hnd.1 x hx (hp x hpx)
      simp [List.filter_cons, hpa, ht]
    · have hb : p b ≠ true := by
        intro hpb
        exact hnd.1 a hat (hp b hpb).symm
      simp [List.filter_cons, hb, ih hnd.2 hat]

/-! ## Session resolver (C2) -/

/-- C2: `getUserIdForToken` leaves the store unchanged; it returns without error exactly
when the store holds a session whose id is the token and whose archival timestamp is
unset; a returned value is the `user_id` of such a session, and of every such session
when session ids are a key; when there is no such session it returns an error. -/
theorem getUserIdForToken_contract (db : Store) (token : String) :
    (getUserIdForToken db token).2 = db ∧
    ((∃ userId, (getUserIdForToken db token).1 = .ok userId) ↔
      ∃ s ∈ db.session, s.activeFor token) ∧
    (∀ userId, (getUserIdForToken db token).1 = .ok userId →
      ∃ s ∈ db.session, s.activeFor token ∧ s.user_id = userId) ∧
    (db.sessionKey → ∀ s ∈ db.session, s.activeFor token →
      (getUserIdForToken db token).1 = .ok s.user_id) ∧
    ((¬ ∃ s ∈ db.session, s.activeFor token) →
      (getUserIdForToken db token).1 = .error .noRows) := by
  refine ⟨rfl, getUserIdForToken_ok_iff db token, ?_, ?_, ?_⟩
  · intro userId h
    have hm := Get_ok_mem h
    simp only [Store.selectSessionUserId, List.mem_map, List.mem_filter,
      decide_eq_true_eq] at hm
    obtain ⟨s, ⟨hs, hact⟩, hu⟩ := hm
    exact ⟨s, hs, hact, hu⟩
  · intro hkey s hs hact
    have hf : db.session.filter (fun s => decide (s.id = token ∧ s.archived_at = none)) = [s] := by
      apply filter_key_eq (fun s : SessionRow => s.id) _ _ hkey s hs
      · simpa [SessionRow.activeFor] using hact
      · intro x hx
        simp only [decide_eq_true_eq] at hx
        rw [hx.1, hact.1]
    show Get (db.selectSessionUserId token) = .ok s.user_id
    unfold Store.selectSessionUserId
    rw [hf]
    rfl
  · intro hno
    cases hr : (getUserIdForToken db token).1 with
    | ok userId => exact absurd ((getUserIdForToken_ok_iff db token).mp ⟨userId, hr⟩) hno
    | error e =>
      have := (Get_error (l := db.selectSessionUserId token) hr).2
      rw [this]

/-- Witness for C2 on `sampleStore`: token `s-al` resolves to `u-al`, the archived
session `s-old` does not resolve. -/
theorem getUserIdForToken_contract_witness :
    (getUserIdForToken sampleStore "s-al").1 = .ok "u-al" ∧
    (getUserIdForToken sampleStore "s-old").1 = .error .noRows :=
  ⟨(getUserIdForToken_contract sampleStore "s-al").2.2.2.1 (by decide)
      ⟨"s-al", "u-al", none⟩ (by decide) (by decide),
   (getUserIdForToken_contract sampleStore "s-old").2.2.2.2 (by decide)⟩

/-! ## Auth gate (C3) -/

/-- C3: for every wrapped handler `next`: when no session is active for the value of the
`token` header, `AuthMiddleware next` writes 401 and returns the store unchanged, by an
outcome in which `next` does not occur (it is not invoked); otherwise the outcome is that
of one call of `next` on the same writer and store, with the request context binding
`userContextKey` to the user id `getUserIdForToken` returned.  The five `/todo` routes of
the router are handlers wrapped this way. -/
theorem AuthMiddleware_gate (next : Handler) (env : Env) (w : ResponseWriter) (r : Request)
    (db : Store) :
    ((¬ ∃ s ∈ db.session, s.activeFor (r.HeaderGet "token")) →
      AuthMiddleware next env w r db =
        some (RespondJSON w http.StatusUnauthorized (some (.error .noRows)), db) ∧
      (w.status = none →
        (RespondJSON w http.StatusUnauthorized (some (.error .noRows))).status = some 401)) ∧
    ((∃ s ∈ db.session, s.activeFor (r.HeaderGet "token")) →
      ∃ userId, (getUserIdForToken db (r.HeaderGet "token")).1 = .ok userId ∧
        userIdOf (r.WithContext (r.Context.WithValue userContextKey userId)) = some userId ∧
        AuthMiddleware next env w r db =
          next env w (r.WithContext (r.Context.WithValue userContextKey userId)) db) ∧
    (router .getTodo = AuthMiddleware todoList ∧ router .postTodo = AuthMiddleware addTodo ∧
      router .putTodoId = AuthMiddleware updateTODO ∧
      router .putTodoIdComplete = AuthMiddleware completeTODO ∧
      router .deleteTodoId = AuthMiddleware deleteTODO) := by
  refine ⟨?_, ?_, rfl, rfl, rfl, rfl, rfl⟩
  · intro hno
    refine ⟨?_, fun hw => status_RespondJSON w _ _ hw⟩
    have hr : Get (db.selectSessionUserId (r.HeaderGet "token")) = .error .noRows := by
      cases hg : Get (db.selectSessionUserId (r.HeaderGet "token")) with
      | ok userId =>
        exact absurd ((getUserIdForToken_ok_iff db _).mp ⟨userId, hg⟩) hno
      | error e => rw [(Get_error hg).2]
    simp [AuthMiddleware, getUserIdForToken, hr]
  · intro hex
    obtain ⟨userId, hu⟩ := (getUserIdForToken_ok_iff db _).mpr hex
    refine ⟨userId, hu, userIdOf_WithContext r userId, ?_⟩
    simp only [getUserIdForToken] at hu
    simp [AuthMiddleware, getUserIdForToken, hu]

/-- Witness for C3 on `sampleStore`: the archived token `s-old` is answered 401 in front
of `deleteTODO`, the active token `s-bo` reaches `todoList` as user `u-bo`, and so does
the active token `s-al` sent in a header spelled `TOKEN`. -/
theorem AuthMiddleware_gate_witness :
    AuthMiddleware deleteTODO sampleEnv ResponseWriter.fresh
        (requestWithToken "s-old" sampleTodoBody) sampleStore =
      some (RespondJSON ResponseWriter.fresh http.StatusUnauthorized (some (.error .noRows)),
        sampleStore) ∧
    (∃ userId, (getUserIdForToken sampleStore "s-bo").1 = .ok userId ∧
      userIdOf ((requestWithToken "s-bo" malformedBody).WithContext
        ((requestWithToken "s-bo" malformedBody).Context.WithValue userContextKey userId)) =
          some userId ∧
      AuthMiddleware todoList sampleEnv ResponseWriter.fresh
          (requestWithToken "s-bo" malformedBody) sampleStore =
        todoList sampleEnv ResponseWriter.fresh
          ((requestWithToken "s-bo" malformedBody).WithContext
            ((requestWithToken "s-bo" malformedBody).Context.WithValue userContextKey userId))
          sampleStore) ∧
    ∃ userId, (getUserIdForToken sampleStore
        ((requestWithHeader "TOKEN" "s-al" malformedBody).HeaderGet "token")).1 = .ok userId ∧
      userIdOf ((requestWithHeader "TOKEN" "s-al" malformedBody).WithContext
        ((requestWithHeader "TOKEN" "s-al" malformedBody).Context.WithValue
          userContextKey userId)) = some userId ∧
      AuthMiddleware todoList sampleEnv ResponseWriter.fresh
          (requestWithHeader "TOKEN" "s-al" malformedBody) sampleStore =
        todoList sampleEnv ResponseWriter.fresh
          ((requestWithHeader "TOKEN" "s-al" malformedBody).WithContext
            ((requestWithHeader "TOKEN" "s-al" malformedBody).Context.WithValue
              userContextKey userId))
          sampleStore :=
  ⟨((AuthMiddleware_gate deleteTODO sampleEnv ResponseWriter.fresh
      (requestWithToken "s-old" sampleTodoBody) sampleStore).1 (by decide)).1,
   (AuthMiddleware_gate todoList sampleEnv ResponseWriter.fresh
      (requestWithToken "s-bo" malformedBody) sampleStore).2.1 (by decide),
   (AuthMiddleware_gate todoList sampleEnv ResponseWriter.fresh
      (requestWithHeader "TOKEN" "s-al" malformedBody) sampleStore).2.1 (by decide)⟩

/-- The header name is matched by canonical spelling: `GET /todo` with the live token
`s-al` in a header spelled `Token` is served with the list of `u-al`, and with no token
header at all it is answered 401. -/
theorem getTodo_header_spelling :
    router .getTodo sampleEnv ResponseWriter.fresh
        (requestWithHeader "Token" "s-al" malformedBody) sampleStore =
      some (⟨some 200, [.todos [⟨"t-1", "buy milk", some 5, none⟩]]⟩, sampleStore) ∧
    router .getTodo sampleEnv ResponseWriter.fresh
        (requestWithHeader "X-Other" "s-al" malformedBody) sampleStore =
      some (⟨some 401, [.error .noRows]⟩, sampleStore) := by
  decide

/-! ## Login without a matching user (C4) -/

/-- C4: when the body decodes to (email, password) and no user row has both that email
and that password, `login` responds 401 and returns the store, hence the session table,
unchanged. -/
theorem login_no_match_unauthorized (env : Env) (r : Request) (db : Store)
    (body : loginRequest) (hbody : r.Body.asLogin = some body)
    (hno : ∀ u ∈ db.users, ¬ (u.email = body.Email ∧ u.password = body.Password)) :
    ∃ w1 db1, login env ResponseWriter.fresh r db = some (w1, db1) ∧
      w1.status = some 401 ∧ db1.session = db.session ∧ db1 = db := by
  have hsel : db.selectUserId body.Email body.Password = [] := by
    unfold Store.selectUserId
    rw [List.map_eq_nil_iff, List.filter_eq_nil_iff]
    intro u hu
    simpa using hno u hu
  refine ⟨RespondJSON ResponseWriter.fresh http.StatusUnauthorized (some (.error .noRows)), db,
    ?_, status_RespondJSON _ _ _ rfl, rfl, rfl⟩
  simp [login, ParseBody, Decodable.decode, hbody, hsel, Get]

/-- Witness for C4 on `sampleStore`: a known email with a wrong password. -/
theorem login_no_match_unauthorized_witness :
    ∃ w1 db1, login sampleEnv ResponseWriter.fresh
        (requestWithToken "" ⟨none, none, some ⟨"al@x.com", "wrong"⟩⟩) sampleStore =
          some (w1, db1) ∧
      w1.status = some 401 ∧ db1.session = sampleStore.session ∧ db1 = sampleStore :=
  login_no_match_unauthorized sampleEnv
    (requestWithToken "" ⟨none, none, some ⟨"al@x.com", "wrong"⟩⟩) sampleStore
    ⟨"al@x.com", "wrong"⟩ rfl (by decide)

/-! ## Listing (C6) -/

/-- C6: for a caller `U`, `todoList` responds 200 with one collection and leaves the store
unchanged; the collection holds a todo with a given id exactly when the store holds a
todo row with that id, owner `U` and no archival timestamp, and its members are exactly
the listed columns of those rows. -/
theorem todoList_own_active (env : Env) (req : Request) (db : Store) (U : String)
    (hU : userIdOf req = some U) :
    ∃ w1 l, todoList env ResponseWriter.fresh req db = some (w1, db) ∧
      w1.status = some 200 ∧ w1.body = [.todos l] ∧
      (∀ id, (∃ x ∈ l, x.Id = id) ↔
        ∃ t ∈ db.todo, t.id = id ∧ t.user_id = U ∧ t.archived_at = none) ∧
      (∀ x, x ∈ l ↔ ∃ t ∈ db.todo, t.user_id = U ∧ t.archived_at = none ∧
        x = ⟨t.id, t.description, t.created_at, t.completed_at⟩) := by
  refine ⟨RespondJSON ResponseWriter.fresh http.StatusOK (some (.todos (db.selectTodos U))),
    db.selectTodos U, ?_, status_RespondJSON _ _ _ rfl, rfl, ?_, ?_⟩
  · simp [todoList, Select, hU]
  · intro id
    simp only [Store.selectTodos, List.mem_map, List.mem_filter, decide_eq_true_eq]
    constructor
    · rintro ⟨x, ⟨t, ⟨ht, ha, hu⟩, rfl⟩, rfl⟩
      exact ⟨t, ht, rfl, hu, ha⟩
    · rintro ⟨t, ht, rfl, hu, ha⟩
      exact ⟨_, ⟨t, ⟨ht, ha, hu⟩, rfl⟩, rfl⟩
  · intro x
    simp only [Store.selectTodos, List.mem_map, List.mem_filter, decide_eq_true_eq]
    constructor
    · rintro ⟨t, ⟨ht, ha, hu⟩, rfl⟩
      exact ⟨t, ht, hu, ha, rfl⟩
    · rintro ⟨t, ht, hu, ha, rfl⟩
      exact ⟨t, ⟨ht, ha, hu⟩, rfl⟩

/-- Witness for C6 on `sampleStore` and caller `u-al`. -/
theorem todoList_own_active_witness :
    ∃ w1 l, todoList sampleEnv ResponseWriter.fresh (requestAs "u-al" malformedBody)
        sampleStore = some (w1, sampleStore) ∧
      w1.status = some 200 ∧ w1.body = [.todos l] ∧
      (∀ id, (∃ x ∈ l, x.Id = id) ↔
        ∃ t ∈ sampleStore.todo, t.id = id ∧ t.user_id = "u-al" ∧ t.archived_at = none) ∧
      (∀ x, x ∈ l ↔ ∃ t ∈ sampleStore.todo, t.user_id = "u-al" ∧ t.archived_at = none ∧
        x = ⟨t.id, t.description, t.created_at, t.completed_at⟩) :=
  todoList_own_active sampleEnv (requestAs "u-al" malformedBody) sampleStore "u-al" rfl

/-! ## Bodies that do not decode (C8) -/

/-- C8, as stated, fails for `todoList`: run as `u-al` with a body that does not decode
as a todo, it responds 200 with the list of `u-al`, not 400. -/
theorem todoList_malformed_body_ok :
    malformedBody.asTodo = none ∧
    todoList sampleEnv ResponseWriter.fresh (requestAs "u-al" malformedBody) sampleStore =
      some (⟨some 200, [.todos [⟨"t-1", "buy milk", some 5, none⟩]]⟩, sampleStore) := by
  decide

/-- C8, amended: with a resolved user identity and a body that does not decode as a todo,
`addTodo`, `updateTODO`, `completeTODO` and `deleteTODO` respond 400 and leave the store
unchanged; `todoList` does not read the body: it responds 200 with the list of the caller
and leaves the store unchanged. -/
theorem malformed_body_bad_request (env : Env) (req : Request) (db : Store) (U : String)
    (hU : userIdOf req = some U) (hbad : req.Body.asTodo = none) :
    (ResponseWriter.fresh.WriteHeader http.StatusBadRequest).status = some 400 ∧
    addTodo env ResponseWriter.fresh req db =
      some (ResponseWriter.fresh.WriteHeader http.StatusBadRequest, db) ∧
    updateTODO env ResponseWriter.fresh req db =
      some (ResponseWriter.fresh.WriteHeader http.StatusBadRequest, db) ∧
    completeTODO env ResponseWriter.fresh req db =
      some (ResponseWriter.fresh.WriteHeader http.StatusBadRequest, db) ∧
    deleteTODO env ResponseWriter.fresh req db =
      some (ResponseWriter.fresh.WriteHeader http.StatusBadRequest, db) ∧
    (RespondJSON ResponseWriter.fresh http.StatusOK (some (.todos (db.selectTodos U)))).status
      = some 200 ∧
    todoList env ResponseWriter.fresh req db =
      some (RespondJSON ResponseWriter.fresh http.StatusOK (some (.todos (db.selectTodos U))),
        db) := by
  have hp := ParseBody_todo_error hbad
  refine ⟨rfl, ?_, ?_, ?_, ?_, rfl, ?_⟩
  · simp [addTodo, hU, hp]
  · simp [updateTODO, hU, hp]
  · simp [completeTODO, hU, hp]
  · simp [deleteTODO, hU, hp]
  · simp [todoList, Select, hU]

/-- Witness for the amended C8 on `sampleStore` and caller `u-al`. -/
theorem malformed_body_bad_request_witness :
    addTodo sampleEnv ResponseWriter.fresh (requestAs "u-al" malformedBody) sampleStore =
      some (ResponseWriter.fresh.WriteHeader http.StatusBadRequest, sampleStore) ∧
    deleteTODO sampleEnv ResponseWriter.fresh (requestAs "u-al" malformedBody) sampleStore =
      some (ResponseWriter.fresh.WriteHeader http.StatusBadRequest, sampleStore) :=
  ⟨(malformed_body_bad_request sampleEnv (requestAs "u-al" malformedBody) sampleStore "u-al"
      rfl rfl).2.1,
   (malformed_body_bad_request sampleEnv (requestAs "u-al" malformedBody) sampleStore "u-al"
      rfl rfl).2.2.2.2.1⟩

/-! ## Mutations scoped by (id, user) -/

/-- No row of a list matches a where-clause `id = $1 and user_id = $2`: the update maps
the list to itself. -/
theorem map_update_no_match (l : List TodoRow) (id userId : String) (f : TodoRow → TodoRow)
    (h : ∀ t ∈ l, ¬ (t.id = id ∧ t.user_id = userId)) :
    l.map (fun t => if t.id = id ∧ t.user_id = userId then f t else t) = l := by
  induction l with
  | nil => rfl
  | cons a t ih =>
    have ha := h a (List.mem_cons_self a t)
    have ht := ih (fun x hx => h x (List.mem_cons_of_mem a hx))
    simp only [List.map_cons, if_neg ha, ht]

/-- Under the key constraint a row is determined by its id. -/
theorem todoKey_row_eq {db : Store} (hkey : db.todoKey) {a b : TodoRow}
    (ha : a ∈ db.todo) (hb : b ∈ db.todo) (hid : a.id = b.id) : a = b :=
  List.inj_on_of_nodup_map hkey ha hb hid

/-- Under the key constraint, a todo owned by someone else is matched by no
where-clause `id = $1 and user_id = $2` naming its id and the caller. -/
theorem no_match_of_foreign {db : Store} (hkey : db.todoKey) {T : TodoRow} (hT : T ∈ db.todo)
    {B : String} (hne : B ≠ T.user_id) :
    ∀ t ∈ db.todo, ¬ (t.id = T.id ∧ t.user_id = B) := by
  intro t ht ⟨hid, hu⟩
  have := todoKey_row_eq hkey ht hT hid
  subst this
  exact hne hu.symm

/-- The three scoped updates run as `userId` with a body naming `id` return the store
unchanged and write 201 when no row has both that id and that owner. -/
theorem scoped_updates_no_match (env : Env) (w : ResponseWriter) (req : Request) (db : Store)
    (userId : String) (body : todo) (hU : userIdOf req = some userId)
    (hbody : req.Body.asTodo = some body)
    (h : ∀ t ∈ db.todo, ¬ (t.id = body.Id ∧ t.user_id = userId)) :
    updateTODO env w req db = some (w.WriteHeader http.StatusCreated, db) ∧
    completeTODO env w req db = some (w.WriteHeader http.StatusCreated, db) ∧
    deleteTODO env w req db = some (w.WriteHeader http.StatusCreated, db) := by
  have hp := ParseBody_todo_ok hbody
  refine ⟨?_, ?_, ?_⟩
  · simp [updateTODO, hU, hp, Store.updateDescription, map_update_no_match _ _ _ _ h]
  · simp [completeTODO, hU, hp, Store.updateCompletedAt, map_update_no_match _ _ _ _ h]
  · simp [deleteTODO, hU, hp, Store.updateArchivedAt, map_update_no_match _ _ _ _ h]

/-! ## Cross-user mutations (C1) -/

/-- C1: in a store whose todo ids are a key, for a todo `T` and a caller `B` who is not
its owner, `updateTODO`, `completeTODO` and `deleteTODO` run as `B` with a body whose id
is the id of `T` return the store unchanged (every todo row, `T` included) and respond
201, which is also their response, with the store unchanged, on any store holding no
todo with that id. -/
theorem foreign_mutation_noop (env : Env) (req : Request) (db : Store) (T : TodoRow)
    (B : String) (body : todo) (hkey : db.todoKey) (hT : T ∈ db.todo)
    (hB : userIdOf req = some B) (hne : B ≠ T.user_id)
    (hbody : req.Body.asTodo = some body) (hid : body.Id = T.id) :
    (ResponseWriter.fresh.WriteHeader http.StatusCreated).status = some 201 ∧
    (updateTODO env ResponseWriter.fresh req db =
        some (ResponseWriter.fresh.WriteHeader http.StatusCreated, db) ∧
      completeTODO env ResponseWriter.fresh req db =
        some (ResponseWriter.fresh.WriteHeader http.StatusCreated, db) ∧
      deleteTODO env ResponseWriter.fresh req db =
        some (ResponseWriter.fresh.WriteHeader http.StatusCreated, db)) ∧
    ∀ db0 : Store, (∀ t ∈ db0.todo, t.id ≠ T.id) →
      updateTODO env ResponseWriter.fresh req db0 =
        some (ResponseWriter.fresh.WriteHeader http.StatusCreated, db0) ∧
      completeTODO env ResponseWriter.fresh req db0 =
        some (ResponseWriter.fresh.WriteHeader http.StatusCreated, db0) ∧
      deleteTODO env ResponseWriter.fresh req db0 =
        some (ResponseWriter.fresh.WriteHeader http.StatusCreated, db0) := by
  refine ⟨rfl, ?_, ?_⟩
  · apply scoped_updates_no_match env _ req db B body hB hbody
    rw [hid]
    exact no_match_of_foreign hkey hT hne
  · intro db0 h0
    apply scoped_updates_no_match env _ req db0 B body hB hbody
    rw [hid]
    intro t ht hm
    exact h0 t ht hm.1

/-- Witness for C1 on `sampleStore`: `u-bo` names the todo `t-1` of `u-al`. -/
theorem foreign_mutation_noop_witness :
    deleteTODO sampleEnv ResponseWriter.fresh (requestAs "u-bo" sampleTodoBody) sampleStore =
      some (ResponseWriter.fresh.WriteHeader http.StatusCreated, sampleStore) :=
  (foreign_mutation_noop sampleEnv (requestAs "u-bo" sampleTodoBody) sampleStore sampleTodo
    "u-bo" ⟨"t-1", "hacked", none, none⟩ (by decide) (by decide) rfl (by decide) rfl
    rfl).2.1.2.2

/-! ## Soft delete (C7, C10) -/

/-- What `todoList` returns for a caller. -/
theorem todoList_eq (env : Env) (w : ResponseWriter) (req : Request) (db : Store) (U : String)
    (hU : userIdOf req = some U) :
    todoList env w req db =
      some (RespondJSON w http.StatusOK (some (.todos (db.selectTodos U))), db) := by
  simp [todoList, Select, hU]

/-- What `deleteTODO` returns for a caller and a body that decodes. -/
theorem deleteTODO_eq (env : Env) (w : ResponseWriter) (req : Request) (db : Store)
    (U : String) (body : todo) (hU : userIdOf req = some U)
    (hbody : req.Body.asTodo = some body) :
    deleteTODO env w req db =
      some (w.WriteHeader http.StatusCreated, db.archived env.now body.Id U) := by
  simp [deleteTODO, hU, ParseBody_todo_ok hbody, Store.updateArchivedAt, Store.archived,
    archiveRow]

/-- Archiving the rows matching (id, user) a second time does not change what the
listing query selects for any user. -/
theorem selectTodos_archive_again (l : List TodoRow) (id U V : String) (n1 n2 : Time) :
    (((l.map (archiveRow n1 id U)).map (archiveRow n2 id U)).filter
        (fun t => decide (t.archived_at = none ∧ t.user_id = V))) =
      ((l.map (archiveRow n1 id U)).filter
        (fun t => decide (t.archived_at = none ∧ t.user_id = V))) := by
  induction l with
  | nil => rfl
  | cons a t ih =>
    simp only [List.map_cons, List.filter_cons, ih]
    by_cases h : a.id = id ∧ a.user_id = U
    · simp [archiveRow, h]
    · simp [archiveRow, h]

/-- C7: in a store whose todo ids are a key, for a non-archived todo `T` of the caller `U`,
`deleteTODO` run as `U` with a body whose id is the id of `T` responds 201 and returns a
store in which the list of `U` holds no todo with the id of `T`, the todo table holds `T`
with only its archival timestamp set (to the time of the call), the table has the same
number of rows, every row other than `T` is unchanged in its place, and the users and
sessions are unchanged. -/
theorem deleteTODO_soft (env : Env) (req : Request) (db : Store) (T : TodoRow) (U : String)
    (body : todo) (hkey : db.todoKey) (hT : T ∈ db.todo) (hown : T.user_id = U)
    (hlive : T.archived_at = none) (hU : userIdOf req = some U)
    (hbody : req.Body.asTodo = some body) (hid : body.Id = T.id) :
    ∃ w1 db1, deleteTODO env ResponseWriter.fresh req db = some (w1, db1) ∧
      w1.status = some 201 ∧
      (∀ env2 req2, userIdOf req2 = some U →
        ∃ w2 l, todoList env2 ResponseWriter.fresh req2 db1 = some (w2, db1) ∧
          w2.status = some 200 ∧ w2.body = [.todos l] ∧ ∀ x ∈ l, x.Id ≠ T.id) ∧
      (⟨T.id, T.description, T.created_at, T.completed_at, some env.now, T.user_id⟩ : TodoRow)
        ∈ db1.todo ∧
      db1.todo.length = db.todo.length ∧
      (∀ (i : Nat) (t : TodoRow), db.todo[i]? = some t → db1.todo[i]? =
        some (if t = T then { T with archived_at := some env.now } else t)) ∧
      db1.users = db.users ∧ db1.session = db.session := by
  have hrow : ∀ t ∈ db.todo,
      (if t.id = body.Id ∧ t.user_id = U then { t with archived_at := some env.now } else t) =
        (if t = T then { T with archived_at := some env.now } else t) := by
    intro t ht
    by_cases h : t = T
    · subst h
      simp [hid, hown]
    · have hn : ¬ (t.id = body.Id ∧ t.user_id = U) := by
        rintro ⟨h1, _⟩
        exact h (todoKey_row_eq hkey ht hT (h1.trans hid))
      simp [h, hn]
  refine ⟨ResponseWriter.fresh.WriteHeader http.StatusCreated,
    { db with todo := db.todo.map (fun t =>
      if t.id = body.Id ∧ t.user_id = U then { t with archived_at := some env.now } else t) },
    deleteTODO_eq env _ req db U body hU hbody, rfl, ?_, ?_, ?_, ?_, rfl, rfl⟩
  · intro env2 req2 hU2
    refine ⟨_, _, todoList_eq env2 _ req2 _ U hU2, status_RespondJSON _ _ _ rfl, rfl, ?_⟩
    intro x hx hxid
    simp only [Store.selectTodos, List.mem_map, List.mem_filter, decide_eq_true_eq] at hx
    obtain ⟨t1, ⟨⟨t, ht, rfl⟩, ha, _⟩, rfl⟩ := hx
    rw [hrow t ht] at ha hxid
    by_cases h : t = T
    · simp [h] at ha
    · simp only [if_neg h] at hxid
      exact h (todoKey_row_eq hkey ht hT hxid)
  · simp only [List.mem_map]
    exact ⟨T, hT, by simp [hid, hown]⟩
  · simp
  · intro i t hi
    simp only [List.getElem?_map, hi, Option.map_some']
    rw [hrow t (List.getElem?_mem hi)]

/-- Witness for C7 on `sampleStore`: `u-al` deletes `t-1`. -/
theorem deleteTODO_soft_witness :
    ∃ w1 db1, deleteTODO sampleEnv ResponseWriter.fresh (requestAs "u-al" sampleTodoBody)
        sampleStore = some (w1, db1) ∧
      w1.status = some 201 ∧
      (∀ env2 req2, userIdOf req2 = some "u-al" →
        ∃ w2 l, todoList env2 ResponseWriter.fresh req2 db1 = some (w2, db1) ∧
          w2.status = some 200 ∧ w2.body = [.todos l] ∧ ∀ x ∈ l, x.Id ≠ sampleTodo.id) ∧
      (⟨sampleTodo.id, sampleTodo.description, sampleTodo.created_at, sampleTodo.completed_at,
        some sampleEnv.now, sampleTodo.user_id⟩ : TodoRow) ∈ db1.todo ∧
      db1.todo.length = sampleStore.todo.length ∧
      (∀ (i : Nat) (t : TodoRow), sampleStore.todo[i]? = some t → db1.todo[i]? =
        some (if t = sampleTodo then { sampleTodo with archived_at := some sampleEnv.now }
          else t)) ∧
      db1.users = sampleStore.users ∧ db1.session = sampleStore.session :=
  deleteTODO_soft sampleEnv (requestAs "u-al" sampleTodoBody) sampleStore sampleTodo "u-al"
    ⟨"t-1", "hacked", none, none⟩ (by decide) (by decide) rfl rfl rfl rfl rfl

/-- C10, as stated, fails: `u-al` deletes `t-1` at time 10 and again at time 11; both
runs respond 201, and the second run overwrites the archival timestamp, so the store
after the second run is not the store after the first. -/
theorem second_delete_overwrites_timestamp :
    deleteTODO sampleEnv ResponseWriter.fresh (requestAs "u-al" sampleTodoBody) sampleStore =
      some (⟨some 201, []⟩, sampleStoreArchived 10) ∧
    deleteTODO laterEnv ResponseWriter.fresh (requestAs "u-al" sampleTodoBody)
        (sampleStoreArchived 10) =
      some (⟨some 201, []⟩, sampleStoreArchived 11) ∧
    decide (sampleStoreArchived 11 = sampleStoreArchived 10) = false := by
  decide

/-- C10, amended: for a caller `U` and a body that decodes, `deleteTODO` run twice in
succession responds 201 both times; after the second run the listing query selects, and
`todoList` responds, for every user the same as after the first run; users and sessions
are unchanged and the todo table differs from the one after the first run at most in the
archival timestamp of the rows matching (id, `U`), which holds the time of the second
run; the two stores are equal when both runs read the same time. -/
theorem deleteTODO_twice (env1 env2 : Env) (req : Request) (db : Store) (U : String)
    (body : todo) (hU : userIdOf req = some U) (hbody : req.Body.asTodo = some body) :
    ∃ w1 db1 w2 db2, deleteTODO env1 ResponseWriter.fresh req db = some (w1, db1) ∧
      deleteTODO env2 ResponseWriter.fresh req db1 = some (w2, db2) ∧
      w1.status = some 201 ∧ w2.status = some 201 ∧
      (∀ V, db2.selectTodos V = db1.selectTodos V) ∧
      (∀ V env3 req3, userIdOf req3 = some V →
        (todoList env3 ResponseWriter.fresh req3 db2).map Prod.fst =
          (todoList env3 ResponseWriter.fresh req3 db1).map Prod.fst) ∧
      db2.users = db1.users ∧ db2.session = db1.session ∧
      db2.todo = db1.todo.map (fun t =>
        if t.id = body.Id ∧ t.user_id = U then { t with archived_at := some env2.now } else t) ∧
      (∀ t ∈ db1.todo, t.id = body.Id ∧ t.user_id = U → t.archived_at = some env1.now) ∧
      (env2.now = env1.now → db2 = db1) ∧
      ((∀ t ∈ db.todo, ¬ (t.id = body.Id ∧ t.user_id = U)) → db2 = db1) := by
  have hsel : ∀ V, ((db.archived env1.now body.Id U).archived env2.now body.Id U).selectTodos V =
      (db.archived env1.now body.Id U).selectTodos V := by
    intro V
    simp only [Store.selectTodos, Store.archived]
    rw [selectTodos_archive_again]
  refine ⟨ResponseWriter.fresh.WriteHeader http.StatusCreated, db.archived env1.now body.Id U,
    ResponseWriter.fresh.WriteHeader http.StatusCreated,
    (db.archived env1.now body.Id U).archived env2.now body.Id U,
    deleteTODO_eq env1 _ req db U body hU hbody,
    deleteTODO_eq env2 _ req _ U body hU hbody, rfl, rfl, hsel, ?_, rfl, rfl, rfl, ?_, ?_, ?_⟩
  · intro V env3 req3 hV
    rw [todoList_eq env3 _ req3 _ V hV, todoList_eq env3 _ req3 _ V hV]
    simp only [Option.map_some', hsel V]
  · intro t ht hm
    simp only [Store.archived, List.mem_map] at ht
    obtain ⟨t0, _, rfl⟩ := ht
    by_cases h : t0.id = body.Id ∧ t0.user_id = U
    · simp [archiveRow, h]
    · simp only [archiveRow, if_neg h] at hm
      exact absurd hm h
  · intro hnow
    simp only [Store.archived, Store.mk.injEq, true_and]
    rw [List.map_map, hnow]
    apply List.map_congr_left
    intro t _
    by_cases h : t.id = body.Id ∧ t.user_id = U
    · simp [archiveRow, h]
    · simp [archiveRow, h]
  · intro hno
    have h1 : db.todo.map (archiveRow env1.now body.Id U) = db.todo :=
      map_update_no_match db.todo body.Id U _ hno
    have h2 : db.todo.map (archiveRow env2.now body.Id U) = db.todo :=
      map_update_no_match db.todo body.Id U _ hno
    simp only [Store.archived, h1, h2]

/-- Witness for the amended C10 on `sampleStore`: `u-al` deletes `t-1` at times 10 and 11. -/
theorem deleteTODO_twice_witness :
    ∃ w1 db1 w2 db2, deleteTODO sampleEnv ResponseWriter.fresh
        (requestAs "u-al" sampleTodoBody) sampleStore = some (w1, db1) ∧
      deleteTODO laterEnv ResponseWriter.fresh (requestAs "u-al" sampleTodoBody) db1 =
        some (w2, db2) ∧
      w1.status = some 201 ∧ w2.status = some 201 ∧
      (∀ V, db2.selectTodos V = db1.selectTodos V) ∧
      (∀ V env3 req3, userIdOf req3 = some V →
        (todoList env3 ResponseWriter.fresh req3 db2).map Prod.fst =
          (todoList env3 ResponseWriter.fresh req3 db1).map Prod.fst) ∧
      db2.users = db1.users ∧ db2.session = db1.session ∧
      db2.todo = db1.todo.map (fun t =>
        if t.id = "t-1" ∧ t.user_id = "u-al" then { t with archived_at := some laterEnv.now }
        else t) ∧
      (∀ t ∈ db1.todo, t.id = "t-1" ∧ t.user_id = "u-al" →
        t.archived_at = some sampleEnv.now) ∧
      (laterEnv.now = sampleEnv.now → db2 = db1) ∧
      ((∀ t ∈ sampleStore.todo, ¬ (t.id = "t-1" ∧ t.user_id = "u-al")) → db2 = db1) :=
  deleteTODO_twice sampleEnv laterEnv (requestAs "u-al" sampleTodoBody) sampleStore "u-al"
    ⟨"t-1", "hacked", none, none⟩ rfl rfl

/-! ## Registration followed by login (C5) -/

/-- A registration answered 201 appended its row to `users`, and no earlier row has the
email of the new one. -/
theorem addUser_created {env : Env} {req : Request} {db db1 : Store} {w1 : ResponseWriter}
    {body : user} (hbody : req.Body.asUser = some body)
    (hadd : addUser env ResponseWriter.fresh req db = some (w1, db1))
    (h201 : w1.status = some 201) :
    db1 = { db with users := db.users ++ [⟨env.uuid, body.Name, body.Email, body.Password⟩] } ∧
    ∀ u ∈ db.users, u.email ≠ body.Email := by
  have hp : (ParseBody req.Body : Except Err user) = .ok body := by
    simp [ParseBody, Decodable.decode, hbody]
  by_cases hany : db.users.any (fun u => decide (u.id = env.uuid ∨ u.email = body.Email)) = true
  · simp only [addUser, hp, Store.insertUser, hany, if_true, Option.some.injEq,
      Prod.mk.injEq] at hadd
    obtain ⟨rfl, _⟩ := hadd
    simp [RespondJSON, EncodeJSONBody, ResponseWriter.Write, ResponseWriter.WriteHeader,
      ResponseWriter.fresh, http.StatusInternalServerError] at h201
  · have hany1 := Bool.eq_false_iff.mpr hany
    simp only [addUser, hp, Store.insertUser, hany1, Bool.false_eq_true, if_false,
      Option.some.injEq, Prod.mk.injEq] at hadd
    refine ⟨hadd.2.symm, ?_⟩
    intro u hu he
    apply hany
    rw [List.any_eq_true]
    exact ⟨u, hu, by simp [he]⟩

/-- C5: when `addUser` answers a registration body (name, email, password) with 201, the
store it returns holds the new user row, whose id is the uuid drawn by the registration;
a following `login` with the same email and password, drawing a session uuid that no
session row uses yet, responds 201 with that uuid as token, and on the store after the
login `getUserIdForToken` of the token returns the id of the inserted user row. -/
theorem register_then_login (env1 env2 : Env) (req1 req2 : Request) (db db1 : Store)
    (w1 : ResponseWriter) (body : user)
    (hbody : req1.Body.asUser = some body)
    (hadd : addUser env1 ResponseWriter.fresh req1 db = some (w1, db1))
    (h201 : w1.status = some 201)
    (hlogin : req2.Body.asLogin = some ⟨body.Email, body.Password⟩)
    (hfresh : ∀ s ∈ db.session, s.id ≠ env2.uuid) :
    db1.users = db.users ++ [⟨env1.uuid, body.Name, body.Email, body.Password⟩] ∧
    ∃ w2 db2, login env2 ResponseWriter.fresh req2 db1 = some (w2, db2) ∧
      w2.status = some 201 ∧ w2.body = [.token ⟨env2.uuid⟩] ∧
      getUserIdForToken db2 env2.uuid = (.ok env1.uuid, db2) := by
  obtain ⟨hdb1, hemail⟩ := addUser_created hbody hadd h201
  subst hdb1
  refine ⟨rfl, ?_⟩
  have hold : db.users.filter
      (fun u => decide (u.email = body.Email ∧ u.password = body.Password)) = [] := by
    rw [List.filter_eq_nil_iff]
    intro u hu
    simp [hemail u hu]
  have hsel : Store.selectUserId
      { db with users := db.users ++ [⟨env1.uuid, body.Name, body.Email, body.Password⟩] }
      body.Email body.Password = [env1.uuid] := by
    simp only [Store.selectUserId, List.filter_append, hold, List.nil_append]
    simp [List.filter_cons]
  have hany : db.session.any (fun s => decide (s.id = env2.uuid)) = false := by
    rw [Bool.eq_false_iff]
    intro h
    rw [List.any_eq_true] at h
    obtain ⟨x, hx, hxe⟩ := h
    exact hfresh x hx (by simpa using hxe)
  have hsess : db.session.filter
      (fun s => decide (s.id = env2.uuid ∧ s.archived_at = none)) = [] := by
    rw [List.filter_eq_nil_iff]
    intro x hx
    simp [hfresh x hx]
  refine ⟨RespondJSON ResponseWriter.fresh http.StatusCreated (some (.token ⟨env2.uuid⟩)),
    { users := db.users ++ [⟨env1.uuid, body.Name, body.Email, body.Password⟩],
      session := db.session ++ [⟨env2.uuid, env1.uuid, none⟩], todo := db.todo },
    ?_, status_RespondJSON _ _ _ rfl, rfl, ?_⟩
  · simp only [login, ParseBody, Decodable.decode, hlogin, hsel, Get, Store.insertSession, hany]
    simp
  · simp only [getUserIdForToken, Store.selectSessionUserId, List.filter_append, hsess,
      List.nil_append]
    simp [List.filter_cons, Get]

/-- Witness for C5: registering and logging in on `sampleStore`. -/
theorem register_then_login_witness :
    addUser sampleEnv ResponseWriter.fresh
      (requestWithToken "" ⟨none, some ⟨"", "Cy", "cy@x.com", "pw3", none, none⟩, none⟩)
      sampleStore = some (⟨some 201, []⟩,
        { sampleStore with users := sampleStore.users ++ [⟨"fresh-1", "Cy", "cy@x.com", "pw3"⟩] }) ∧
    ∃ w2 db2, login laterEnv ResponseWriter.fresh
        (requestWithToken "" ⟨none, none, some ⟨"cy@x.com", "pw3"⟩⟩)
        { sampleStore with users := sampleStore.users ++ [⟨"fresh-1", "Cy", "cy@x.com", "pw3"⟩] } =
          some (w2, db2) ∧
      w2.status = some 201 ∧ w2.body = [.token ⟨"fresh-2"⟩] ∧
      getUserIdForToken db2 "fresh-2" = (.ok "fresh-1", db2) :=
  ⟨by decide,
   (register_then_login sampleEnv laterEnv
    (requestWithToken "" ⟨none, some ⟨"", "Cy", "cy@x.com", "pw3", none, none⟩, none⟩)
    (requestWithToken "" ⟨none, none, some ⟨"cy@x.com", "pw3"⟩⟩) sampleStore
    { sampleStore with users := sampleStore.users ++ [⟨"fresh-1", "Cy", "cy@x.com", "pw3"⟩] }
    ⟨some 201, []⟩ ⟨"", "Cy", "cy@x.com", "pw3", none, none⟩ rfl (by decide) rfl rfl
    (by decide)).2⟩

/-! ## Referential integrity (C9) -/

/-- An update of todo rows that keeps every owner keeps referential integrity. -/
theorem refInt_todo_map (db : Store) (f : TodoRow → TodoRow)
    (hf : ∀ t, (f t).user_id = t.user_id) (h : db.refInt) :
    Store.refInt { db with todo := db.todo.map f } := by
  refine ⟨h.1, ?_⟩
  intro t ht
  simp only [List.mem_map] at ht
  obtain ⟨t0, ht0, rfl⟩ := ht
  rw [hf t0]
  exact h.2 t0 ht0

/-- Outcome of `todoList` under referential integrity. -/
theorem todoList_refInt (env : Env) (w : ResponseWriter) (req : Request) (db : Store)
    (U : String) (hU : userIdOf req = some U) (h : db.refInt) :
    ∃ w1 db1, todoList env w req db = some (w1, db1) ∧ db1.refInt :=
  ⟨_, _, todoList_eq env w req db U hU, h⟩

/-- Outcome of `addTodo` under referential integrity, for a caller who is a user. -/
theorem addTodo_refInt (env : Env) (w : ResponseWriter) (req : Request) (db : Store)
    (U : String) (hU : userIdOf req = some U) (hex : ∃ u ∈ db.users, u.id = U)
    (h : db.refInt) :
    ∃ w1 db1, addTodo env w req db = some (w1, db1) ∧ db1.refInt := by
  cases hb : req.Body.asTodo with
  | none => exact ⟨w.WriteHeader http.StatusBadRequest, db, by simp [addTodo, hU, ParseBody_todo_error hb], h⟩
  | some body =>
    by_cases hany : db.todo.any (fun t => decide (t.id = env.uuid)) = true
    · exact ⟨w.WriteHeader http.StatusInternalServerError, db,
        by simp [addTodo, hU, ParseBody_todo_ok hb, Store.insertTodo, hany], h⟩
    · have hany1 := Bool.eq_false_iff.mpr hany
      refine ⟨w.WriteHeader http.StatusCreated,
        { db with todo := db.todo ++ [⟨env.uuid, body.Description, some env.now, none, none, U⟩] },
        by simp [addTodo, hU, ParseBody_todo_ok hb, Store.insertTodo, hany1], h.1, ?_⟩
      intro t ht
      rcases List.mem_append.mp ht with ht | ht
      · exact h.2 t ht
      · rw [List.mem_singleton] at ht
        subst ht
        exact hex

/-- Outcome of `updateTODO` under referential integrity. -/
theorem updateTODO_refInt (env : Env) (w : ResponseWriter) (req : Request) (db : Store)
    (U : String) (hU : userIdOf req = some U) (h : db.refInt) :
    ∃ w1 db1, updateTODO env w req db = some (w1, db1) ∧ db1.refInt := by
  cases hb : req.Body.asTodo with
  | none => exact ⟨w.WriteHeader http.StatusBadRequest, db, by simp [updateTODO, hU, ParseBody_todo_error hb], h⟩
  | some body =>
    refine ⟨w.WriteHeader http.StatusCreated, _,
      by simp only [updateTODO, hU, ParseBody_todo_ok hb, Store.updateDescription],
      refInt_todo_map db (fun t =>
        if t.id = body.Id ∧ t.user_id = U then { t with description := body.Description } else t) ?_ h⟩
    intro t
    by_cases hc : t.id = body.Id ∧ t.user_id = U <;> simp [hc]

/-- Outcome of `completeTODO` under referential integrity. -/
theorem completeTODO_refInt (env : Env) (w : ResponseWriter) (req : Request) (db : Store)
    (U : String) (hU : userIdOf req = some U) (h : db.refInt) :
    ∃ w1 db1, completeTODO env w req db = some (w1, db1) ∧ db1.refInt := by
  cases hb : req.Body.asTodo with
  | none => exact ⟨w.WriteHeader http.StatusBadRequest, db, by simp [completeTODO, hU, ParseBody_todo_error hb], h⟩
  | some body =>
    refine ⟨w.WriteHeader http.StatusCreated, _,
      by simp only [completeTODO, hU, ParseBody_todo_ok hb, Store.updateCompletedAt],
      refInt_todo_map db (fun t =>
        if t.id = body.Id ∧ t.user_id = U then { t with completed_at := some env.now } else t) ?_ h⟩
    intro t
    by_cases hc : t.id = body.Id ∧ t.user_id = U <;> simp [hc]

/-- Outcome of `deleteTODO` under referential integrity. -/
theorem deleteTODO_refInt (env : Env) (w : ResponseWriter) (req : Request) (db : Store)
    (U : String) (hU : userIdOf req = some U) (h : db.refInt) :
    ∃ w1 db1, deleteTODO env w req db = some (w1, db1) ∧ db1.refInt := by
  cases hb : req.Body.asTodo with
  | none => exact ⟨w.WriteHeader http.StatusBadRequest, db, by simp [deleteTODO, hU, ParseBody_todo_error hb], h⟩
  | some body =>
    refine ⟨w.WriteHeader http.StatusCreated, _,
      by simp only [deleteTODO, hU, ParseBody_todo_ok hb, Store.updateArchivedAt],
      refInt_todo_map db (fun t =>
        if t.id = body.Id ∧ t.user_id = U then { t with archived_at := some env.now } else t) ?_ h⟩
    intro t
    by_cases hc : t.id = body.Id ∧ t.user_id = U <;> simp [hc]

/-- Outcome of `addUser` under referential integrity. -/
theorem addUser_refInt (env : Env) (w : ResponseWriter) (req : Request) (db : Store)
    (h : db.refInt) :
    ∃ w1 db1, addUser env w req db = some (w1, db1) ∧ db1.refInt := by
  cases hb : req.Body.asUser with
  | none =>
    exact ⟨RespondJSON w http.StatusBadRequest (some (.error .parse)), db,
      by simp [addUser, ParseBody, Decodable.decode, hb], h⟩
  | some body =>
    by_cases hany : db.users.any (fun u => decide (u.id = env.uuid ∨ u.email = body.Email)) = true
    · exact ⟨RespondJSON w http.StatusInternalServerError (some (.error .constraint)), db,
        by simp only [addUser, ParseBody, Decodable.decode, hb, Store.insertUser, hany, if_true],
        h⟩
    · have hany1 := Bool.eq_false_iff.mpr hany
      refine ⟨RespondJSON w http.StatusCreated none,
        { db with users := db.users ++ [⟨env.uuid, body.Name, body.Email, body.Password⟩] },
        by simp only [addUser, ParseBody, Decodable.decode, hb, Store.insertUser, hany1,
          Bool.false_eq_true, if_false], ?_, ?_⟩
      · intro x hx
        obtain ⟨u, hu, he⟩ := h.1 x hx
        exact ⟨u, List.mem_append_left _ hu, he⟩
      · intro x hx
        obtain ⟨u, hu, he⟩ := h.2 x hx
        exact ⟨u, List.mem_append_left _ hu, he⟩

/-- Outcome of `login` under referential integrity. -/
theorem login_refInt (env : Env) (w : ResponseWriter) (req : Request) (db : Store)
    (h : db.refInt) :
    ∃ w1 db1, login env w req db = some (w1, db1) ∧ db1.refInt := by
  cases hb : req.Body.asLogin with
  | none =>
    exact ⟨RespondJSON w http.StatusBadRequest (some (.error .parse)), db,
      by simp [login, ParseBody, Decodable.decode, hb], h⟩
  | some body =>
    cases hg : Get (db.selectUserId body.Email body.Password) with
    | error e =>
      exact ⟨RespondJSON w http.StatusUnauthorized (some (.error e)), db,
        by simp [login, ParseBody, Decodable.decode, hb, hg], h⟩
    | ok userId =>
      have hm := Get_ok_mem hg
      simp only [Store.selectUserId, List.mem_map, List.mem_filter] at hm
      obtain ⟨u, ⟨hu, _⟩, hid⟩ := hm
      by_cases hany : db.session.any (fun s => decide (s.id = env.uuid)) = true
      · exact ⟨RespondJSON w http.StatusInternalServerError (some (.error .constraint)), db, by
          simp [login, ParseBody, Decodable.decode, hb, hg, Store.insertSession, hany], h⟩
      · have hany1 := Bool.eq_false_iff.mpr hany
        refine ⟨RespondJSON w http.StatusCreated (some (.token ⟨env.uuid⟩)),
          { db with session := db.session ++ [⟨env.uuid, userId, none⟩] },
          by simp [login, ParseBody, Decodable.decode, hb, hg, Store.insertSession, hany1],
          ?_, h.2⟩
        intro x hx
        rcases List.mem_append.mp hx with hx | hx
        · exact h.1 x hx
        · rw [List.mem_singleton] at hx
          subst hx
          exact ⟨u, hu, hid⟩

/-- Outcome of `AuthMiddleware` under referential integrity: the wrapped handler is only
ever run for a caller who is a user. -/
theorem AuthMiddleware_refInt (next : Handler) (env : Env) (w : ResponseWriter) (req : Request)
    (db : Store) (h : db.refInt)
    (hnext : ∀ req1 U, userIdOf req1 = some U → (∃ u ∈ db.users, u.id = U) →
      ∃ w1 db1, next env w req1 db = some (w1, db1) ∧ db1.refInt) :
    ∃ w1 db1, AuthMiddleware next env w req db = some (w1, db1) ∧ db1.refInt := by
  cases hg : Get (db.selectSessionUserId (req.HeaderGet "token")) with
  | error e =>
    exact ⟨RespondJSON w http.StatusUnauthorized (some (.error e)), db,
      by simp [AuthMiddleware, getUserIdForToken, hg], h⟩
  | ok userId =>
    have hm := Get_ok_mem hg
    simp only [Store.selectSessionUserId, List.mem_map, List.mem_filter] at hm
    obtain ⟨s, ⟨hs, _⟩, hid⟩ := hm
    have hex : ∃ u ∈ db.users, u.id = userId := by
      rw [← hid]
      exact h.1 s hs
    obtain ⟨w1, db1, hr, hri⟩ := hnext _ userId (userIdOf_WithContext req userId) hex
    exact ⟨w1, db1, by simp [AuthMiddleware, getUserIdForToken, hg, hr], hri⟩

/-- C9: referential integrity is an invariant of serving a request: from a store in which
every session and every todo names an existing user, every route of the router, with any
environment, writer and request (header and body), returns (it does not panic) a store
in which again every session and every todo names an existing user. -/
theorem refInt_invariant (rt : Route) (env : Env) (w : ResponseWriter) (req : Request)
    (db : Store) (h : db.refInt) :
    ∃ w1 db1, router rt env w req db = some (w1, db1) ∧ db1.refInt := by
  cases rt with
  | getHealth => exact ⟨w.Write (.text "health\n"), db, rfl, h⟩
  | postLogin => exact login_refInt env w req db h
  | postUser => exact addUser_refInt env w req db h
  | getTodo =>
    exact AuthMiddleware_refInt _ env w req db h
      (fun req1 U hU _ => todoList_refInt env w req1 db U hU h)
  | postTodo =>
    exact AuthMiddleware_refInt _ env w req db h
      (fun req1 U hU hex => addTodo_refInt env w req1 db U hU hex h)
  | putTodoId =>
    exact AuthMiddleware_refInt _ env w req db h
      (fun req1 U hU _ => updateTODO_refInt env w req1 db U hU h)
  | putTodoIdComplete =>
    exact AuthMiddleware_refInt _ env w req db h
      (fun req1 U hU _ => completeTODO_refInt env w req1 db U hU h)
  | deleteTodoId =>
    exact AuthMiddleware_refInt _ env w req db h
      (fun req1 U hU _ => deleteTODO_refInt env w req1 db U hU h)

/-- Witness for C9: adding a todo with the token of `u-bo` on `sampleStore`. -/
theorem refInt_invariant_witness :
    sampleStore.refInt ∧
    ∃ w1 db1, router Route.postTodo sampleEnv ResponseWriter.fresh
        (requestWithToken "s-bo" sampleTodoBody) sampleStore = some (w1, db1) ∧ db1.refInt :=
  ⟨by decide, refInt_invariant Route.postTodo sampleEnv ResponseWriter.fresh
    (requestWithToken "s-bo" sampleTodoBody) sampleStore (by decide)⟩

/-! ## The key constraint on todo ids is kept by every route

The statements about single todos (C1, C7) assume that todo ids are a key.  This
section shows the assumption is an invariant of serving requests. -/

/-- An update of todo rows that keeps every id keeps the key constraint. -/
theorem todoKey_todo_map (db : Store) (f : TodoRow → TodoRow) (hf : ∀ t, (f t).id = t.id)
    (h : db.todoKey) : Store.todoKey { db with todo := db.todo.map f } := by
  unfold Store.todoKey at h ⊢
  have : (db.todo.map f).map (fun t => t.id) = db.todo.map (fun t => t.id) := by
    rw [List.map_map]
    exact List.map_congr_left (fun t _ => hf t)
  simp only [this]
  exact h

/-- Every todo handler keeps the key constraint on todo ids. -/
theorem todo_handlers_keep_key (env : Env) (w : ResponseWriter) (req : Request) (db : Store)
    (h : db.todoKey) (hd : Handler)
    (hmem : hd = todoList ∨ hd = addTodo ∨ hd = updateTODO ∨ hd = completeTODO ∨ hd = deleteTODO) :
    ∀ w1 db1, hd env w req db = some (w1, db1) → db1.todoKey := by
  intro w1 db1 hr
  cases hU : userIdOf req with
  | none =>
    rcases hmem with rfl | rfl | rfl | rfl | rfl <;>
      simp [todoList, Select, addTodo, updateTODO, completeTODO, deleteTODO, hU] at hr
  | some U =>
    cases hb : req.Body.asTodo with
    | none =>
      have hp := ParseBody_todo_error hb
      rcases hmem with rfl | rfl | rfl | rfl | rfl <;>
        simp only [todoList, Select, addTodo, updateTODO, completeTODO, deleteTODO, hU, hp,
          Option.some.injEq, Prod.mk.injEq] at hr <;>
        (rw [← hr.2]; exact h)
    | some body =>
      have hp := ParseBody_todo_ok hb
      rcases hmem with rfl | rfl | rfl | rfl | rfl
      · simp only [todoList, Select, hU, Option.some.injEq, Prod.mk.injEq] at hr
        rw [← hr.2]; exact h
      · by_cases hany : db.todo.any (fun t => decide (t.id = env.uuid)) = true
        · simp only [addTodo, hU, hp, Store.insertTodo, hany, if_true, Option.some.injEq,
            Prod.mk.injEq] at hr
          rw [← hr.2]; exact h
        · have hany1 := Bool.eq_false_iff.mpr hany
          simp only [addTodo, hU, hp, Store.insertTodo, hany1, Bool.false_eq_true, if_false,
            Option.some.injEq, Prod.mk.injEq] at hr
          rw [← hr.2]
          unfold Store.todoKey at h ⊢
          simp only [List.map_append, List.map_cons, List.map_nil]
          rw [List.nodup_append]
          refine ⟨h, List.nodup_singleton _, ?_⟩
          rw [List.disjoint_singleton]
          intro hin
          apply hany
          rw [List.mem_map] at hin
          obtain ⟨t, ht, hte⟩ := hin
          rw [List.any_eq_true]
          exact ⟨t, ht, by simp [hte]⟩
      · simp only [updateTODO, hU, hp, Store.updateDescription, Option.some.injEq,
          Prod.mk.injEq] at hr
        rw [← hr.2]
        apply todoKey_todo_map db _ _ h
        intro t
        by_cases hc : t.id = body.Id ∧ t.user_id = U <;> simp [hc]
      · simp only [completeTODO, hU, hp, Store.updateCompletedAt, Option.some.injEq,
          Prod.mk.injEq] at hr
        rw [← hr.2]
        apply todoKey_todo_map db _ _ h
        intro t
        by_cases hc : t.id = body.Id ∧ t.user_id = U <;> simp [hc]
      · simp only [deleteTODO, hU, hp, Store.updateArchivedAt, Option.some.injEq,
          Prod.mk.injEq] at hr
        rw [← hr.2]
        apply todoKey_todo_map db _ _ h
        intro t
        by_cases hc : t.id = body.Id ∧ t.user_id = U <;> simp [hc]

end TodoTraining
